import Mathlib

/-!
Verification model of the ShoppingAssistantAIAgents ingredient pipeline.

The embedding covers, from `agent.py`, the functions
`ShoppingListConsolidatorAgent.run`, `_is_numeric` and
`OrchestratorAgent.get_ingredients`, and from `tools.py` the functions
`get_ingredients_for_dish`, `_find_ingredients_from_url`,
`_get_recipe_from_db` and `_save_recipe_to_db`.

Modelling conventions:
- Python dicts become association lists with Python insertion/update
  semantics (`pyDictGet`, `pyDictSet`, `pyModify`).
- Python `sorted` (a stable sort) becomes the stable insertion sort
  `sortLe`; for a total transitive comparison a stable sort is uniquely
  determined, so this is observationally the same function.
- Python floats are modelled as exact decimal values `m / 10 ^ e`
  (`PyFloat`).  On the values the claims exercise (small decimals whose
  sums are exactly representable) this agrees with IEEE double
  arithmetic and with the `repr` rendering used by f-strings; binary
  rounding artifacts such as `0.1 + 0.2` are outside the model, as are
  the `inf`/`nan`/underscore spellings accepted by Python `float()`.
- Exceptions become `Except`; external collaborators (web search, page
  fetch, BeautifulSoup query results, the translation service, the
  LLM structuring chain, MongoDB availability) enter as explicit data
  or function parameters of the model.
-/

namespace Shopping

/-- ASCII whitespace test used to model Python `str.strip()`. -/
def pySpace (c : Char) : Bool :=
  c.toNat = 32 || (9 ≤ c.toNat && c.toNat ≤ 13)

/-- Strip leading and trailing whitespace from a character list. -/
def stripChars (cs : List Char) : List Char :=
  ((cs.dropWhile pySpace).reverse.dropWhile pySpace).reverse

/-- Model of Python `str.strip()`. -/
def pyStrip (s : String) : String :=
  String.mk (stripChars s.data)

/-- Lower-case one ASCII character, the effect of Python `str.lower()`
on the inputs that occur here. -/
def lowerChar (c : Char) : Char :=
  if 65 ≤ c.toNat && c.toNat ≤ 90 then Char.ofNat (c.toNat + 32) else c

/-- Upper-case one ASCII character. -/
def upperChar (c : Char) : Char :=
  if 97 ≤ c.toNat && c.toNat ≤ 122 then Char.ofNat (c.toNat - 32) else c

/-- Model of Python `str.lower()`. -/
def pyLower (s : String) : String :=
  String.mk (s.data.map lowerChar)

/-- Model of Python `str.capitalize()`: first character upper-cased,
the rest lower-cased. -/
def pyCapitalize (s : String) : String :=
  match s.data with
  | [] => ""
  | c :: cs => String.mk (upperChar c :: cs.map lowerChar)

/-- Exact decimal number `m / 10 ^ e`, the model of a Python float. -/
structure PyFloat where
  m : Int
  e : Nat
deriving DecidableEq

/-- Exact addition of decimal values, the model of float addition on
decimally representable operands. -/
def PyFloat.add (x y : PyFloat) : PyFloat :=
  if x.e ≤ y.e then ⟨x.m * (10 : Int) ^ (y.e - x.e) + y.m, y.e⟩
  else ⟨x.m + y.m * (10 : Int) ^ (x.e - y.e), x.e⟩

/-- Remove factors of ten shared by mantissa and exponent, so that the
rendering below is the shortest decimal form (`150.0`, `0.5`). -/
def stripTens (m : Int) : Nat → Int × Nat
  | 0 => (m, 0)
  | e + 1 => if m % 10 = 0 then stripTens (m / 10) e else (m, e + 1)

/-- Model of Python `repr` / f-string rendering of a float that is an
exact decimal: an integral value prints with a trailing `.0`, other
values print their shortest decimal digits. -/
def PyFloat.render (x : PyFloat) : String :=
  let p := stripTens x.m x.e
  let sign := if p.1 < 0 then "-" else ""
  let ds := (toString p.1.natAbs).data
  if p.2 = 0 then sign ++ String.mk ds ++ ".0"
  else
    let ds := if ds.length ≤ p.2 then List.replicate (p.2 + 1 - ds.length) '0' ++ ds else ds
    sign ++ String.mk (ds.take (ds.length - p.2)) ++ "." ++ String.mk (ds.drop (ds.length - p.2))

/-- Decimal digit test. -/
def isDigitCh (c : Char) : Bool :=
  48 ≤ c.toNat && c.toNat ≤ 57

/-- Numeric value of a digit list. -/
def digitsToNat (ds : List Char) : Nat :=
  ds.foldl (fun a c => 10 * a + (c.toNat - 48)) 0

/-- Model of Python `float(s)` on decimal literals: optional sign,
digits with an optional point, optional signed exponent, surrounding
whitespace ignored; `none` models the `ValueError` raised otherwise. -/
def parsePyFloat (s : String) : Option PyFloat :=
  let cs := stripChars s.data
  let sgn : Int := match cs with | '-' :: _ => -1 | _ => 1
  let cs := match cs with | '+' :: t => t | '-' :: t => t | _ => cs
  let ip := cs.takeWhile isDigitCh
  let cs := cs.dropWhile isDigitCh
  let fp := match cs with | '.' :: t => t.takeWhile isDigitCh | _ => []
  let cs := match cs with | '.' :: t => t.dropWhile isDigitCh | _ => cs
  if ip.isEmpty && fp.isEmpty then none
  else
    let m : Int := sgn * (digitsToNat (ip ++ fp) : Nat)
    let e : Nat := fp.length
    match cs with
    | [] => some ⟨m, e⟩
    | c :: t =>
      if c = 'e' || c = 'E' then
        let esgn : Int := match t with | '-' :: _ => -1 | _ => 1
        let t := match t with | '+' :: t2 => t2 | '-' :: t2 => t2 | _ => t
        let ed := t.takeWhile isDigitCh
        let rest := t.dropWhile isDigitCh
        if ed.isEmpty || !rest.isEmpty then none
        else
          let diff : Int := (e : Int) - esgn * (digitsToNat ed : Nat)
          if diff ≤ 0 then some ⟨m * (10 : Int) ^ (-diff).toNat, 0⟩
          else some ⟨m, diff.toNat⟩
      else none

/-- Model of `_is_numeric` in `agent.py`: whether `float(s)` succeeds. -/
def isNumeric (s : String) : Bool :=
  (parsePyFloat s).isSome

/-- Python dict lookup on an association list. -/
def pyDictGet {α : Type} (k : String) : List (String × α) → Option α
  | [] => none
  | (k', v) :: rest => if k' = k then some v else pyDictGet k rest

/-- Python dict assignment: update in place if the key is present,
append otherwise. -/
def pyDictSet {α : Type} (k : String) (v : α) : List (String × α) → List (String × α)
  | [] => [(k, v)]
  | (k', v') :: rest => if k' = k then (k', v) :: rest else (k', v') :: pyDictSet k v rest

/-- In-place update of the value stored under a present key. -/
def pyModify {α : Type} (k : String) (f : α → α) : List (String × α) → List (String × α)
  | [] => []
  | (k', v) :: rest => if k' = k then (k', f v) :: rest else (k', v) :: pyModify k f rest

/-- Stable insertion of `a` into `l` before the first element it
compares at-most-equal to. -/
def insertLe {α : Type} (le : α → α → Bool) (a : α) : List α → List α
  | [] => [a]
  | b :: l => if le a b then a :: b :: l else b :: insertLe le a l

/-- Stable sort; the model of Python `sorted`. -/
def sortLe {α : Type} (le : α → α → Bool) : List α → List α
  | [] => []
  | a :: l => insertLe le a (sortLe le l)

/-- Code-point lexicographic at-most comparison on character lists,
Python string comparison. -/
def strLeList : List Char → List Char → Bool
  | [], _ => true
  | _ :: _, [] => false
  | a :: as, b :: bs =>
    if a.toNat < b.toNat then true
    else if b.toNat < a.toNat then false
    else strLeList as bs

/-- Python `<=` on strings. -/
def pyStrLe (s t : String) : Bool :=
  strLeList s.data t.data

/-! ## ShoppingListConsolidatorAgent (agent.py lines 15-55) -/

/-- One ingredient record `{name, quantity, unit}` as produced by the
extractor chain; a record missing a key behaves as the empty string,
matching `ingredient.get(k, "")`. -/
structure Ingredient where
  name : String
  quantity : String
  unit : String
deriving DecidableEq

/-- One element of a per-dish list handed to the consolidator: either a
plain string (the orchestrator stores error messages this way) or an
ingredient record. -/
inductive Item where
  | str (s : String)
  | dict (ing : Ingredient)
deriving DecidableEq

/-- A collected quantity: `float(quantity)` for numeric quantities with
a unit, the raw string otherwise, matching the two `append` sites. -/
inductive Qty where
  | num (v : PyFloat)
  | str (s : String)
deriving DecidableEq

/-- The per-name accumulator `{"quantities": [...], "units": set()}`;
the unit set is kept as an insertion-ordered duplicate-free list. -/
structure Group where
  quantities : List Qty
  units : List String
deriving DecidableEq

/-- The `consolidated_dict` of `run`. -/
def GDict := List (String × Group)

/-- Python `set.add` on the insertion-ordered representation. -/
def addUnit (u : String) (us : List String) : List String :=
  if u ∈ us then us else us ++ [u]

/-- Body of the inner loop of `ShoppingListConsolidatorAgent.run`
(agent.py lines 28-43) for a single ingredient record. -/
def processIngredient (d : GDict) (ing : Ingredient) : GDict :=
  let name := pyStrip (pyLower ing.name)
  if name = "" then d
  else
    let unit := pyStrip (pyLower ing.unit)
    let d : GDict :=
      match pyDictGet name d with
      | none => pyDictSet name ⟨[], []⟩ d
      | some _ => d
    match parsePyFloat ing.quantity with
    | some v =>
      if unit ≠ "" then
        pyModify name (fun g => ⟨g.quantities ++ [Qty.num v], addUnit unit g.units⟩) d
      else if ing.quantity ≠ "" then
        pyModify name (fun g => ⟨g.quantities ++ [Qty.str ing.quantity], g.units⟩) d
      else d
    | none =>
      if ing.quantity ≠ "" then
        pyModify name (fun g => ⟨g.quantities ++ [Qty.str ing.quantity], g.units⟩) d
      else d

/-- Iterate the records of one dish; reaching a plain string after the
first position models the `AttributeError` Python raises on
`ingredient.get`. -/
def processItems (d : GDict) : List Item → Except String GDict
  | [] => Except.ok d
  | Item.str _ :: _ => Except.error "AttributeError: str has no attribute get"
  | Item.dict ing :: rest => processItems (processIngredient d ing) rest

/-- One entry of the input mapping (agent.py lines 23-43): an empty
list, or a list whose first element is a string, is skipped whole. -/
def processEntry (d : GDict) (entry : String × List Item) : Except String GDict :=
  match entry.2 with
  | [] => Except.ok d
  | Item.str _ :: _ => Except.ok d
  | Item.dict ing :: rest => processItems (processIngredient d ing) rest

/-- Fold `processEntry` over the input mapping in iteration order. -/
def buildDict (d : GDict) : List (String × List Item) → Except String GDict
  | [] => Except.ok d
  | e :: rest =>
    match processEntry d e with
    | Except.error msg => Except.error msg
    | Except.ok d' => buildDict d' rest

/-- Membership of a quantity in the `all(_is_numeric(q) ...)` test:
stored floats always pass, stored strings pass when `float` accepts
them. -/
def isNumQty : Qty → Bool
  | Qty.num _ => true
  | Qty.str s => isNumeric s

/-- Whether a stored quantity is an actual float, so that Python
`sum` can add it to its running total. -/
def isNumLit : Qty → Bool
  | Qty.num _ => true
  | Qty.str _ => false

/-- Numeric value of a stored quantity (only consulted on floats). -/
def qtyVal : Qty → PyFloat
  | Qty.num v => v
  | Qty.str _ => ⟨0, 0⟩

/-- Formatting of one group (agent.py lines 48-53).  With exactly one
unit and all-numeric quantities the sum is rendered as a float; a
numeric *string* quantity in that branch makes Python `sum` raise
`TypeError`; `sum` of no quantities is the int `0` and prints bare. -/
def formatGroup (name : String) (g : Group) : Except String String :=
  match g.units with
  | [u] =>
    if g.quantities.all isNumQty then
      if g.quantities.all isNumLit then
        match g.quantities with
        | [] => Except.ok ("0 " ++ u ++ " " ++ pyCapitalize name)
        | q :: qs =>
          Except.ok (PyFloat.render ((q :: qs).foldl (fun a x => PyFloat.add a (qtyVal x)) ⟨0, 0⟩)
            ++ " " ++ u ++ " " ++ pyCapitalize name)
      else Except.error "TypeError: unsupported operand types for sum"
    else Except.ok (pyCapitalize name)
  | _ => Except.ok (pyCapitalize name)

/-- Format every group, stopping at the first raising group, in the
order the groups are given. -/
def formatAll : List (String × Group) → Except String (List String)
  | [] => Except.ok []
  | p :: rest =>
    match formatGroup p.1 p.2 with
    | Except.error e => Except.error e
    | Except.ok s =>
      match formatAll rest with
      | Except.error e => Except.error e
      | Except.ok l => Except.ok (s :: l)

/-- Comparison used by `sorted(consolidated_dict.items())`; the keys of
a dict are distinct, so the tuple comparison never reaches the values. -/
def keyLe (a b : String × Group) : Bool :=
  pyStrLe a.1 b.1

/-- `ShoppingListConsolidatorAgent.run` (agent.py lines 17-55): build
the consolidated dict, format the groups in key order, and return the
formatted strings sorted by Python string comparison. -/
def run (allIngredients : List (String × List Item)) : Except String (List String) :=
  match buildDict [] allIngredients with
  | Except.error e => Except.error e
  | Except.ok d =>
    match formatAll (sortLe keyLe d) with
    | Except.error e => Except.error e
    | Except.ok final => Except.ok (sortLe pyStrLe final)

/-! ## _find_ingredients_from_url (tools.py lines 92-174) -/

/-- A JSON value, as returned by `json.loads` on a ld+json script. -/
inductive Json where
  | null
  | bool (b : Bool)
  | num (n : Int)
  | str (s : String)
  | arr (elems : List Json)
  | obj (fields : List (String × Json))

/-- Lookup of a key in a JSON object (`node.get` / `in`). -/
def jLookup (k : String) : List (String × Json) → Option Json
  | [] => none
  | (k', v) :: rest => if k' = k then some v else jLookup k rest

/-- The list comprehension `[ing for ing in x if ing.strip()]`:
iterating a JSON array of strings keeps the non-blank entries;
iterating a string yields its characters, iterating an object yields
its keys; a non-iterable value raises `TypeError` and a non-string
element raises `AttributeError`, both modelled as `Except.error`. -/
def pyStripFilter : Json → Except Unit (List String)
  | Json.arr es =>
    if es.all (fun e => match e with | Json.str _ => true | _ => false) then
      Except.ok ((es.filterMap (fun e => match e with | Json.str s => some s | _ => none)).filter
        (fun s => pyStrip s ≠ ""))
    else Except.error ()
  | Json.str s =>
    Except.ok ((s.data.map (fun c => String.mk [c])).filter (fun s => pyStrip s ≠ ""))
  | Json.obj fs => Except.ok ((fs.map (fun p => p.1)).filter (fun s => pyStrip s ≠ ""))
  | _ => Except.error ()

/-- `node.get('@type') == 'Recipe' and 'recipeIngredient' in node`,
returning the ingredient field of a matching recipe node. -/
def recipeIngredientOf : Json → Option Json
  | Json.obj fs =>
    match jLookup "@type" fs with
    | some (Json.str t) => if t = "Recipe" then jLookup "recipeIngredient" fs else none
    | _ => none
  | _ => none

/-- Iteration over `item.get('@graph', [])`: arrays yield their
elements, objects their keys, strings their characters; anything else
raises `TypeError`. -/
def graphNodes : Json → Except Unit (List Json)
  | Json.arr es => Except.ok es
  | Json.obj fs => Except.ok (fs.map (fun p => Json.str p.1))
  | Json.str s => Except.ok (s.data.map (fun c => Json.str (String.mk [c])))
  | _ => Except.error ()

/-- The loop over `data_list` inside one ld+json script (tools.py
lines 119-132): for each dict item, first scan its `@graph` nodes for
a recipe with an ingredient field, then check the item itself; the
first match returns its filtered ingredient list, and an exception
anywhere abandons the whole script. -/
def scanDataList : List Json → Except Unit (Option (List String))
  | [] => Except.ok none
  | item :: rest =>
    match item with
    | Json.obj fs =>
      match graphNodes ((jLookup "@graph" fs).getD (Json.arr [])) with
      | Except.error _ => Except.error ()
      | Except.ok nodes =>
        match (nodes.filterMap recipeIngredientOf).head? with
        | some ri =>
          match pyStripFilter ri with
          | Except.error _ => Except.error ()
          | Except.ok l => Except.ok (some l)
        | none =>
          match recipeIngredientOf (Json.obj fs) with
          | some ri =>
            match pyStripFilter ri with
            | Except.error _ => Except.error ()
            | Except.ok l => Except.ok (some l)
          | none => scanDataList rest
    | _ => scanDataList rest

/-- One `script type=application/ld+json` element: `script.string` may
be absent, fail to parse as JSON, or parse to a value. -/
inductive LdScript where
  | noString
  | badJson
  | parsed (j : Json)

/-- Method 1 (tools.py lines 107-134): scripts whose body is missing or
malformed are skipped, a parse result that is not an array is wrapped
in a singleton list, and the first script containing a recipe returns
its filtered ingredient lines — even when that filtered list is empty. -/
def methodLdJson : List LdScript → Option (List String)
  | [] => none
  | s :: rest =>
    match s with
    | LdScript.parsed j =>
      match scanDataList (match j with | Json.arr l => l | _ => [j]) with
      | Except.ok (some l) => some l
      | _ => methodLdJson rest
    | _ => methodLdJson rest

/-- Method 2 (tools.py lines 137-142): `none` models the absence of a
`schema.org/Recipe` scope; otherwise the texts of its
`itemprop=recipeIngredient` elements.  With no such element the method
falls through; otherwise it returns the non-blank stripped texts. -/
def methodMicrodata : Option (List String) → Option (List String)
  | none => none
  | some texts =>
    match texts with
    | [] => none
    | _ :: _ => some ((texts.map pyStrip).filter (fun s => s ≠ ""))

/-- A sibling of an ingredients heading: a `ul`/`ol` with the texts of
its `li` children, an element whose tag starts with `h`, or anything
else. -/
inductive Sib where
  | ulOl (liTexts : List String)
  | hTag
  | other

/-- The sibling scan under one heading (tools.py lines 147-155): the
first list sibling returns its items when there are more than one and
otherwise stops this heading; a heading-like sibling stops; other
siblings are stepped over. -/
def scanSiblings : List Sib → Option (List String)
  | [] => none
  | Sib.ulOl items :: _ =>
    if items.length > 1 then some ((items.map pyStrip).filter (fun s => s ≠ ""))
    else none
  | Sib.hTag :: _ => none
  | Sib.other :: rest => scanSiblings rest

/-- Method 3 (tools.py lines 145-155) over the matching ingredients
headings in document order, each given with its following siblings. -/
def methodHeading : List (List Sib) → Option (List String)
  | [] => none
  | sibs :: rest =>
    match scanSiblings sibs with
    | some l => some l
    | none => methodHeading rest

/-- Scan the sections matched by one CSS selector: the first section
with more than one `li` returns its non-blank stripped texts. -/
def scanSections : List (List String) → Option (List String)
  | [] => none
  | items :: rest =>
    if items.length > 1 then some ((items.map pyStrip).filter (fun s => s ≠ ""))
    else scanSections rest

/-- Method 4 (tools.py lines 158-167): the four class/id selector
queries in order, each with the `li` texts of every matched section. -/
def methodSelectors : List (List (List String)) → Option (List String)
  | [] => none
  | sections :: rest =>
    match scanSections sections with
    | some l => some l
    | none => methodSelectors rest

/-- The queries `_find_ingredients_from_url` poses to the parsed page,
one field per BeautifulSoup query the code performs. -/
structure Soup where
  ldScripts : List LdScript
  recipeScope : Option (List String)
  headings : List (List Sib)
  selectorSections : List (List (List String))

/-- Strategy cascade of `_find_ingredients_from_url`: each method is
tried in order and the first one that returns from the Python function
wins; later methods run only when the earlier ones fell through. -/
def findFromSoup (s : Soup) : Option (List String) :=
  match methodLdJson s.ldScripts with
  | some l => some l
  | none =>
    match methodMicrodata s.recipeScope with
    | some l => some l
    | none =>
      match methodHeading s.headings with
      | some l => some l
      | none => methodSelectors s.selectorSections

/-- `_find_ingredients_from_url` (tools.py lines 92-174): the argument
is the outcome of fetching and parsing the page, `Except.error`
standing for any exception raised by the request, `raise_for_status`,
or the HTML processing; the surrounding `try` turns every such
exception into `None`. -/
def findIngredientsFromUrl (page : Except String Soup) : Option (List String) :=
  match page with
  | Except.error _ => none
  | Except.ok soup => findFromSoup soup

/-! ## get_ingredients_for_dish (tools.py lines 176-233) -/

/-- The recipe store: MongoDB documents `name ↦ ingredients`, the
ingredients being whatever JSON array elements the extractor chain
returned. -/
def Db := List (String × List Json)

/-- External collaborators of `get_ingredients_for_dish`, one field per
outside call the function makes.  `translateDish` returning `none`
models `GoogleTranslator.translate` raising; `dbAvailable` is whether
`_get_db_collection` produced a collection; `findFromUrl` is the
(total, never-raising) `_find_ingredients_from_url`; `chain` is
`_INGREDIENT_EXTRACTOR_CHAIN.invoke`, whose `Except.error` models the
exception its JSON output stage raises on non-JSON model text. -/
structure FetchEnv where
  translateDish : String → Option String
  dbAvailable : Bool
  searchResults : List String
  findFromUrl : String → Option (List String)
  translateList : List String → List String
  chain : String → Except String Json

/-- Cache key (tools.py lines 183-190): the translated dish name
lower-cased, falling back to the stripped input when translation
returns an empty value or raises. -/
def cacheKeyOf (env : FetchEnv) (dish : String) : String :=
  match env.translateDish (pyStrip dish) with
  | some t => if t = "" then pyLower (pyStrip dish) else pyLower t
  | none => pyLower (pyStrip dish)

/-- `_get_recipe_from_db` (tools.py lines 78-82), `none` when the
collection is unavailable or the key is absent. -/
def getRecipeFromDb (available : Bool) (db : Db) (key : String) : Option (List Json) :=
  if available then pyDictGet key db else none

/-- `_save_recipe_to_db` (tools.py lines 84-90): an upsert, a no-op
without a collection. -/
def saveRecipeToDb (available : Bool) (db : Db) (key : String) (ings : List Json) : Db :=
  if available then pyDictSet key ings db else db

/-- Ways `get_ingredients_for_dish` can raise: the two `ValueError`
sites, the `NameError` on the unbound translated name, and a re-raised
exception from the extractor chain. -/
inductive FetchErr where
  | notFound
  | unclear
  | nameErr
  | chainExn (msg : String)
deriving DecidableEq

/-- Observable outcome of one `get_ingredients_for_dish` call: the
returned list or raised exception, the recipe store afterwards, and
whether the web search was issued. -/
structure FetchOut where
  result : Except FetchErr (List Json)
  db : Db
  searched : Bool

/-- Paste the translated lines back into one text block,
`"\n".join(translated_ingredients)`. -/
def joinNl : List String → String
  | [] => ""
  | [s] => s
  | s :: rest => s ++ "\n" ++ joinNl rest

/-- The candidate-URL loop (tools.py lines 207-227): a URL whose page
yields no raw lines is skipped; otherwise the lines are translated,
joined and handed to the chain; a chain exception propagates; a chain
value that is not a non-empty list means skip to the next URL; a
non-empty list is saved under the cache key and returned.  Running out
of URLs raises the closing `ValueError`. -/
def candidateLoop (env : FetchEnv) (key : String) (db : Db) : List String → FetchOut
  | [] => ⟨Except.error FetchErr.unclear, db, true⟩
  | url :: rest =>
    match env.findFromUrl url with
    | some (r :: rs) =>
      match env.chain (joinNl (env.translateList (r :: rs))) with
      | Except.error e => ⟨Except.error (FetchErr.chainExn e), db, true⟩
      | Except.ok v =>
        match v with
        | Json.arr (c :: cs) =>
          ⟨Except.ok (c :: cs), saveRecipeToDb env.dbAvailable db key (c :: cs), true⟩
        | _ => candidateLoop env key db rest
    | _ => candidateLoop env key db rest

/-- `get_ingredients_for_dish` (tools.py lines 176-233): compute the
cache key, return a non-empty stored list immediately without
searching, otherwise search; zero search results raise `ValueError`
(or `NameError` when the translated name is unbound because
translation raised), and otherwise the candidate loop decides. -/
def getIngredientsForDish (env : FetchEnv) (db : Db) (dish : String) : FetchOut :=
  match getRecipeFromDb env.dbAvailable db (cacheKeyOf env dish) with
  | some (i :: is) => ⟨Except.ok (i :: is), db, false⟩
  | _ =>
    match env.searchResults with
    | [] =>
      match env.translateDish (pyStrip dish) with
      | some _ => ⟨Except.error FetchErr.notFound, db, true⟩
      | none => ⟨Except.error FetchErr.nameErr, db, true⟩
    | u :: us => candidateLoop env (cacheKeyOf env dish) db (u :: us)

/-! ## OrchestratorAgent.get_ingredients (agent.py lines 160-182) -/

/-- How one dish lands in the results dict: the returned clean list on
success, the singleton `["An error occurred: ..."]` when the tool
raised. -/
def fetchEntryResult (res : Except String (List Item)) : List Item :=
  match res with
  | Except.ok l => l
  | Except.error e => [Item.str ("An error occurred: " ++ e)]

/-- `OrchestratorAgent.get_ingredients`: invoke the tool per dish in
order, catching any exception into that dish entry of the results
dict. -/
def getIngredients (fetch : String → Except String (List Item)) (dishes : List String) :
    List (String × List Item) :=
  dishes.foldl (fun acc d => pyDictSet d (fetchEntryResult (fetch d)) acc) []

/-! ## Concrete fixtures used by individual claims -/

/-- The quantity non-merging example of the spec: under the name salt,
one record with empty quantity and unit and one with quantity 1 tsp. -/
def c1Input : List (String × List Item) :=
  [("dish", [Item.dict ⟨"salt", "", ""⟩, Item.dict ⟨"salt", "1", "tsp"⟩])]

/-- The quantity merging example of the spec: 100 g carrot and
50 g Carrot from two different dishes. -/
def c2Input : List (String × List Item) :=
  [("tomato soup", [Item.dict ⟨"carrot", "100", "g"⟩]),
   ("stew", [Item.dict ⟨"Carrot", "50", "g"⟩])]

/-- Input whose formatted items sort differently from their group
names: the zebra group gets a numeric prefix, the apple group does
not, and the digit prefix sorts before the capital letter. -/
def c5Input : List (String × List Item) :=
  [("d", [Item.dict ⟨"zebra", "1", "g"⟩, Item.dict ⟨"apple", "", ""⟩])]

/-- A page carrying both a JSON-LD recipe block, whose only ingredient
line is blank, and a heading-based ingredient list with two items. -/
def c6Soup : Soup :=
  { ldScripts := [LdScript.parsed (Json.obj
      [("@type", Json.str "Recipe"), ("recipeIngredient", Json.arr [Json.str "  "])])],
    recipeScope := none,
    headings := [[Sib.ulOl ["1 cup flour", "2 eggs"]]],
    selectorSections := [] }

/-- Environment in which the extractor chain raises, as its JSON
output stage does when the model emits non-JSON text. -/
def c3Env : FetchEnv :=
  { translateDish := fun _ => some "pizza",
    dbAvailable := true,
    searchResults := ["url1"],
    findFromUrl := fun _ => some ["1 cup flour"],
    translateList := fun l => l,
    chain := fun _ => Except.error "invalid json output" }

/-- Environment for the no-exception side of the same claim: the chain
always returns a value (here one that is not a list at all). -/
def c3OkEnv : FetchEnv :=
  { translateDish := fun _ => some "pizza",
    dbAvailable := true,
    searchResults := ["url1"],
    findFromUrl := fun _ => some ["1 cup flour"],
    translateList := fun l => l,
    chain := fun _ => Except.ok (Json.str "not a list") }

/-- An extracted record whose name is empty after trimming. -/
def emptyNameRecord : Json :=
  Json.obj [("quantity", Json.str "1"), ("unit", Json.str "g"), ("name", Json.str "")]

/-- The name field of a record, as stored. -/
def recName : Json → Option String
  | Json.obj fs =>
    match jLookup "name" fs with
    | some (Json.str s) => some s
    | _ => none
  | _ => none

/-- Environment in which the chain returns a single record with an
empty name. -/
def c4Env : FetchEnv :=
  { translateDish := fun _ => some "pizza",
    dbAvailable := true,
    searchResults := ["url1"],
    findFromUrl := fun _ => some ["salt to taste"],
    translateList := fun l => l,
    chain := fun _ => Except.ok (Json.arr [emptyNameRecord]) }

/-- The clean ingredient list of the caching example. -/
def c7Ings : List Json :=
  [Json.obj [("quantity", Json.str "100"), ("unit", Json.str "g"), ("name", Json.str "carrot")]]

/-- Environment for a successful first fetch of tomato soup. -/
def c7Env : FetchEnv :=
  { translateDish := fun _ => some "Tomato Soup",
    dbAvailable := true,
    searchResults := ["url1"],
    findFromUrl := fun _ => some ["100 g carrot"],
    translateList := fun l => l,
    chain := fun _ => Except.ok (Json.arr c7Ings) }

/-- The store contents after that first fetch. -/
def c7Db : Db := [("tomato soup", c7Ings)]

/-- A per-dish tool behavior that raises for soup and succeeds for
everything else. -/
def c8Fetch : String → Except String (List Item) :=
  fun d => if d = "soup" then Except.error "boom" else Except.ok [Item.dict ⟨"salt", "", ""⟩]

/-! ## Helper lemmas -/

theorem pyDictGet_set_self {α : Type} (k : String) (v : α) (m : List (String × α)) :
    pyDictGet k (pyDictSet k v m) = some v := by
  induction m with
  | nil => simp [pyDictGet, pyDictSet]
  | cons p rest ih =>
    obtain ⟨k', v'⟩ := p
    by_cases h : k' = k
    · simp [pyDictSet, pyDictGet, h]
    · simp [pyDictSet, pyDictGet, h, ih]

theorem pyDictGet_set_ne {α : Type} {k k' : String} (h : k' ≠ k) (v : α)
    (m : List (String × α)) : pyDictGet k (pyDictSet k' v m) = pyDictGet k m := by
  induction m with
  | nil => simp [pyDictGet, pyDictSet, h]
  | cons p rest ih =>
    obtain ⟨k'', v''⟩ := p
    by_cases h2 : k'' = k'
    · subst h2; simp [pyDictSet, pyDictGet, h]
    · by_cases h3 : k'' = k
      · subst h3; simp [pyDictSet, pyDictGet, h2, Ne.symm h]
      · simp [pyDictSet, pyDictGet, h2, h3, ih]

theorem strLeList_cons_iff (x y : Char) (as bs : List Char) :
    strLeList (x :: as) (y :: bs) = true ↔
      x.toNat < y.toNat ∨ (x.toNat = y.toNat ∧ strLeList as bs = true) := by
  by_cases h1 : x.toNat < y.toNat
  · simp [strLeList, h1]
  · by_cases h2 : y.toNat < x.toNat
    · rw [show strLeList (x :: as) (y :: bs) = false by
        simp only [strLeList]; rw [if_neg h1, if_pos h2]]
      constructor
      · intro h; cases h
      · intro h
        exfalso
        rcases h with h | ⟨h, _⟩
        · omega
        · omega
    · have he : x.toNat = y.toNat := by omega
      rw [show strLeList (x :: as) (y :: bs) = strLeList as bs by
        simp only [strLeList]; rw [if_neg h1, if_neg h2]]
      simp [he]

theorem strLeList_total (a : List Char) : ∀ b, strLeList a b = true ∨ strLeList b a = true := by
  induction a with
  | nil => intro b; left; simp [strLeList]
  | cons x as ih =>
    intro b
    cases b with
    | nil => right; simp [strLeList]
    | cons y bs =>
      by_cases h1 : x.toNat < y.toNat
      · left; exact (strLeList_cons_iff x y as bs).mpr (Or.inl h1)
      · by_cases h2 : y.toNat < x.toNat
        · right; exact (strLeList_cons_iff y x bs as).mpr (Or.inl h2)
        · have he : x.toNat = y.toNat := by omega
          rcases ih bs with h | h
          · left; exact (strLeList_cons_iff x y as bs).mpr (Or.inr ⟨he, h⟩)
          · right; exact (strLeList_cons_iff y x bs as).mpr (Or.inr ⟨he.symm, h⟩)

theorem strLeList_trans (a : List Char) :
    ∀ b c, strLeList a b = true → strLeList b c = true → strLeList a c = true := by
  induction a with
  | nil => intro b c _ _; simp [strLeList]
  | cons x as ih =>
    intro b c h1 h2
    cases b with
    | nil => simp [strLeList] at h1
    | cons y bs =>
      cases c with
      | nil => simp [strLeList] at h2
      | cons z cs =>
        rcases (strLeList_cons_iff x y as bs).mp h1 with hxy | ⟨hxy, hab⟩ <;>
          rcases (strLeList_cons_iff y z bs cs).mp h2 with hyz | ⟨hyz, hbc⟩
        · exact (strLeList_cons_iff x z as cs).mpr (Or.inl (by omega))
        · exact (strLeList_cons_iff x z as cs).mpr (Or.inl (by omega))
        · exact (strLeList_cons_iff x z as cs).mpr (Or.inl (by omega))
        · exact (strLeList_cons_iff x z as cs).mpr (Or.inr ⟨by omega, ih bs cs hab hbc⟩)

theorem pyStrLe_total (s t : String) : pyStrLe s t = true ∨ pyStrLe t s = true :=
  strLeList_total s.data t.data

theorem pyStrLe_trans {s t u : String} (h1 : pyStrLe s t = true) (h2 : pyStrLe t u = true) :
    pyStrLe s u = true :=
  strLeList_trans s.data t.data u.data h1 h2

theorem mem_insertLe {α : Type} (le : α → α → Bool) (a x : α) (l : List α) :
    x ∈ insertLe le a l ↔ x = a ∨ x ∈ l := by
  induction l with
  | nil => simp [insertLe]
  | cons b t ih =>
    by_cases h : le a b = true
    · simp [insertLe, h]
    · simp [insertLe, h, ih]
      tauto

theorem pairwise_insertLe {α : Type} (le : α → α → Bool)
    (htot : ∀ a b, le a b = true ∨ le b a = true)
    (htr : ∀ a b c, le a b = true → le b c = true → le a c = true)
    (a : α) (l : List α) (h : l.Pairwise (fun x y => le x y = true)) :
    (insertLe le a l).Pairwise (fun x y => le x y = true) := by
  induction l with
  | nil => simp [insertLe]
  | cons b t ih =>
    have hb := (List.pairwise_cons.mp h).1
    have ht := (List.pairwise_cons.mp h).2
    by_cases hab : le a b = true
    · simp only [insertLe, hab, if_true]
      refine List.pairwise_cons.mpr ⟨?_, h⟩
      intro x hx
      rcases List.mem_cons.mp hx with rfl | hxt
      · exact hab
      · exact htr a b x hab (hb x hxt)
    · have hba : le b a = true := (htot a b).resolve_left hab
      simp only [insertLe, hab, if_false]
      refine List.pairwise_cons.mpr ⟨?_, ih ht⟩
      intro x hx
      rcases (mem_insertLe le a x t).mp hx with rfl | hxt
      · exact hba
      · exact hb x hxt

theorem pairwise_sortLe {α : Type} (le : α → α → Bool)
    (htot : ∀ a b, le a b = true ∨ le b a = true)
    (htr : ∀ a b c, le a b = true → le b c = true → le a c = true)
    (l : List α) : (sortLe le l).Pairwise (fun x y => le x y = true) := by
  induction l with
  | nil => simp [sortLe]
  | cons a t ih => exact pairwise_insertLe le htot htr a (sortLe le t) ih

theorem buildDict_append (d : GDict) (l1 l2 : List (String × List Item)) :
    buildDict d (l1 ++ l2) =
      match buildDict d l1 with
      | Except.error e => Except.error e
      | Except.ok d' => buildDict d' l2 := by
  induction l1 generalizing d with
  | nil => simp [buildDict]
  | cons e rest ih =>
    simp only [List.cons_append, buildDict]
    cases processEntry d e with
    | error msg => rfl
    | ok d' => exact ih d'

theorem processEntry_skip (d : GDict) (dish : String) (items : List Item)
    (h : items = [] ∨ ∃ s rest, items = Item.str s :: rest) :
    processEntry d (dish, items) = Except.ok d := by
  rcases h with rfl | ⟨s, rest, rfl⟩
  · rfl
  · rfl

theorem candidateLoop_ok (env : FetchEnv) (key : String) (db : Db) :
    ∀ (urls : List String) (ings : List Json) (db' : Db) (s : Bool),
      candidateLoop env key db urls = ⟨Except.ok ings, db', s⟩ →
      db' = saveRecipeToDb env.dbAvailable db key ings ∧ ings ≠ [] := by
  intro urls
  induction urls with
  | nil =>
    intro ings db' s h
    simp [candidateLoop] at h
  | cons u us ih =>
    intro ings db' s h
    cases hfind : env.findFromUrl u with
    | none =>
      simp only [candidateLoop, hfind] at h
      exact ih ings db' s h
    | some raw =>
      cases raw with
      | nil =>
        simp only [candidateLoop, hfind] at h
        exact ih ings db' s h
      | cons r rs =>
        cases hchain : env.chain (joinNl (env.translateList (r :: rs))) with
        | error e =>
          simp [candidateLoop, hfind, hchain] at h
        | ok v =>
          cases v with
          | arr elems =>
            cases elems with
            | nil =>
              simp only [candidateLoop, hfind, hchain] at h
              exact ih ings db' s h
            | cons c cs =>
              simp only [candidateLoop, hfind, hchain, FetchOut.mk.injEq] at h
              obtain ⟨h1, h2, _⟩ := h
              obtain rfl : ings = c :: cs := Except.ok.inj h1.symm
              exact ⟨h2.symm, by simp⟩
          | null =>
            simp only [candidateLoop, hfind, hchain] at h
            exact ih ings db' s h
          | bool b =>
            simp only [candidateLoop, hfind, hchain] at h
            exact ih ings db' s h
          | num n =>
            simp only [candidateLoop, hfind, hchain] at h
            exact ih ings db' s h
          | str s2 =>
            simp only [candidateLoop, hfind, hchain] at h
            exact ih ings db' s h
          | obj fs =>
            simp only [candidateLoop, hfind, hchain] at h
            exact ih ings db' s h

theorem candidateLoop_no_chainExn (env : FetchEnv) (key : String) (db : Db)
    (hchain : ∀ s e, env.chain s ≠ Except.error e) :
    ∀ (urls : List String) (m : String),
      (candidateLoop env key db urls).result ≠ Except.error (FetchErr.chainExn m) := by
  intro urls
  induction urls with
  | nil => intro m h; simp [candidateLoop] at h
  | cons u us ih =>
    intro m h
    cases hfind : env.findFromUrl u with
    | none =>
      simp only [candidateLoop, hfind] at h
      exact ih m h
    | some raw =>
      cases raw with
      | nil =>
        simp only [candidateLoop, hfind] at h
        exact ih m h
      | cons r rs =>
        cases hchain2 : env.chain (joinNl (env.translateList (r :: rs))) with
        | error e =>
          exact hchain _ e hchain2
        | ok v =>
          cases v with
          | arr elems =>
            cases elems with
            | nil =>
              simp only [candidateLoop, hfind, hchain2] at h
              exact ih m h
            | cons c cs =>
              simp [candidateLoop, hfind, hchain2] at h
          | null =>
            simp only [candidateLoop, hfind, hchain2] at h
            exact ih m h
          | bool b =>
            simp only [candidateLoop, hfind, hchain2] at h
            exact ih m h
          | num n =>
            simp only [candidateLoop, hfind, hchain2] at h
            exact ih m h
          | str s2 =>
            simp only [candidateLoop, hfind, hchain2] at h
            exact ih m h
          | obj fs =>
            simp only [candidateLoop, hfind, hchain2] at h
            exact ih m h

theorem getIngredients_untouched (fetch : String → Except String (List Item))
    (rest : List String) (d : String) (h : d ∉ rest) :
    ∀ acc : List (String × List Item),
      pyDictGet d (rest.foldl (fun acc x => pyDictSet x (fetchEntryResult (fetch x)) acc) acc)
        = pyDictGet d acc := by
  induction rest with
  | nil => intro acc; rfl
  | cons x t ih =>
    intro acc
    have hx : x ≠ d := by
      intro hxd
      exact h (hxd ▸ List.mem_cons_self x t)
    have ht : d ∉ t := fun hm => h (List.mem_cons_of_mem x hm)
    simp only [List.foldl_cons]
    rw [ih ht, pyDictGet_set_ne hx]

theorem getIngredients_mem (fetch : String → Except String (List Item))
    (dishes : List String) (d : String) (h : d ∈ dishes) :
    ∀ acc : List (String × List Item),
      pyDictGet d (dishes.foldl (fun acc x => pyDictSet x (fetchEntryResult (fetch x)) acc) acc)
        = some (fetchEntryResult (fetch d)) := by
  induction dishes with
  | nil => cases h
  | cons x t ih =>
    intro acc
    by_cases hd : d ∈ t
    · exact ih hd _
    · have hdx : d = x := by
        rcases List.mem_cons.mp h with h1 | h1
        · exact h1
        · exact absurd h1 hd
      subst hdx
      simp only [List.foldl_cons]
      rw [getIngredients_untouched fetch t d hd, pyDictGet_set_self]

/-! ## Claim theorems -/

/-- C1, counterexample: on the salt input the consolidator does not
emit just `Salt`; the record with empty quantity and unit contributes
nothing to the group, so the remaining numeric record makes the group
all-numeric single-unit and the output is `1.0 tsp Salt`. -/
theorem c1_counterexample :
    run c1Input = Except.ok ["1.0 tsp Salt"] ∧ run c1Input ≠ Except.ok ["Salt"] := by
  constructor
  · rfl
  · intro h
    have h0 : run c1Input = Except.ok ["1.0 tsp Salt"] := rfl
    rw [h0] at h
    exact absurd (Except.ok.inj h) (by decide)

/-- C1, amended: for the salt group with one empty-quantity record and
one `1 tsp` record, `ShoppingListConsolidatorAgent.run` emits exactly
`1.0 tsp Salt` — the empty-quantity record is silently dropped rather
than blocking the merge. -/
theorem c1_amended_salt_group : run c1Input = Except.ok ["1.0 tsp Salt"] := rfl

/-- C2, counterexample: the carrot group is summed, but Python renders
the float sum `150.0` with its trailing `.0`, so the emitted string is
not `150 g Carrot`. -/
theorem c2_counterexample :
    run c2Input = Except.ok ["150.0 g Carrot"] ∧ run c2Input ≠ Except.ok ["150 g Carrot"] := by
  constructor
  · rfl
  · intro h
    have h0 : run c2Input = Except.ok ["150.0 g Carrot"] := rfl
    rw [h0] at h
    exact absurd (Except.ok.inj h) (by decide)

/-- C2, amended: for `100 g carrot` and `50 g Carrot` from two dishes,
`ShoppingListConsolidatorAgent.run` emits exactly `150.0 g Carrot`:
the numeric quantities are summed and rendered as a float. -/
theorem c2_amended_carrot_sum : run c2Input = Except.ok ["150.0 g Carrot"] := rfl

/-- C5, counterexample: the output for `c5Input` lists the zebra item
(`1.0 g Zebra`) before the apple item (`Apple`), because the final
`sorted` compares the formatted strings and the digit prefix sorts
before the capital letter; the group names in output order, zebra then
apple, are not in lexicographic order. -/
theorem c5_counterexample :
    run c5Input = Except.ok ["1.0 g Zebra", "Apple"] ∧
    ¬ List.Pairwise (fun a b => pyStrLe a b = true) ["zebra", "apple"] := by
  constructor
  · rfl
  · intro h
    have h1 := (List.pairwise_cons.mp h).1 "apple" (by simp)
    exact absurd h1 (by decide)

/-- C5, amended: every successful output of
`ShoppingListConsolidatorAgent.run` is sorted by Python string
comparison of the formatted item strings (quantity and unit prefix
included), since the final `sorted` is applied to the formatted list. -/
theorem c5_amended_sorted_formatted (allIngredients : List (String × List Item))
    (out : List String) (h : run allIngredients = Except.ok out) :
    out.Pairwise (fun a b => pyStrLe a b = true) := by
  cases hb : buildDict [] allIngredients with
  | error e => simp [run, hb] at h
  | ok d =>
    cases hf : formatAll (sortLe keyLe d) with
    | error e => simp [run, hb, hf] at h
    | ok final =>
      simp only [run, hb, hf] at h
      rw [← Except.ok.inj h]
      exact pairwise_sortLe pyStrLe pyStrLe_total (fun a b c h1 h2 => pyStrLe_trans h1 h2) final

/-- C5, witness: the amended theorem applied to the concrete input. -/
theorem c5_witness :
    List.Pairwise (fun a b => pyStrLe a b = true) ["1.0 g Zebra", "Apple"] :=
  c5_amended_sorted_formatted c5Input ["1.0 g Zebra", "Apple"] rfl

/-- C10: an entry of the input mapping whose list is empty, or whose
first element is a string — even a legitimate list of plain ingredient
strings — is skipped whole and contributes nothing to the
consolidated output. -/
theorem c10_skip_entry (m1 m2 : List (String × List Item)) (dish : String) (items : List Item)
    (h : items = [] ∨ ∃ s rest, items = Item.str s :: rest) :
    run (m1 ++ (dish, items) :: m2) = run (m1 ++ m2) := by
  unfold run
  rw [buildDict_append [] m1 ((dish, items) :: m2), buildDict_append [] m1 m2]
  cases hb : buildDict [] m1 with
  | error e => simp only
  | ok d =>
    simp only
    have hskip := processEntry_skip d dish items h
    simp only [buildDict, hskip]

/-- C10, witness: a list of plain ingredient strings is dropped even
though it is not an error message. -/
theorem c10_witness :
    run [("pasta", [Item.dict ⟨"salt", "", ""⟩]), ("odd", [Item.str "2 eggs", Item.str "flour"])]
      = run [("pasta", [Item.dict ⟨"salt", "", ""⟩])] := by
  have h := c10_skip_entry [("pasta", [Item.dict ⟨"salt", "", ""⟩])] [] "odd"
    [Item.str "2 eggs", Item.str "flour"] (Or.inr ⟨"2 eggs", [Item.str "flour"], rfl⟩)
  simpa using h

/-- C9: `_find_ingredients_from_url` is total — every exception of the
page fetch or HTML processing (the `Except.error` input) is caught by
its surrounding handlers and turned into `None`; the strategy cascade
itself is a total function by construction. -/
theorem c9_total_catches (msg : String) :
    findIngredientsFromUrl (Except.error msg) = none := rfl

/-- C9, witness. -/
theorem c9_witness : findIngredientsFromUrl (Except.error "connection timed out") = none :=
  c9_total_catches "connection timed out"

/-- C6, counterexample: on a page with a JSON-LD recipe block whose
only ingredient line is blank plus a genuine heading-based list, the
function returns the empty filtered result of the structured-data
strategy (strategy one matched, so it returns even though it yielded
zero non-empty lines) instead of the heading list the claim predicts. -/
theorem c6_counterexample :
    findFromSoup c6Soup = some [] ∧
    findFromSoup c6Soup ≠ some ["1 cup flour", "2 eggs"] ∧
    methodHeading c6Soup.headings = some ["1 cup flour", "2 eggs"] := by
  refine ⟨rfl, ?_, rfl⟩
  intro h
  have h0 : findFromSoup c6Soup = some [] := rfl
  rw [h0] at h
  exact absurd (Option.some.inj h) (by decide)

/-- C6, amended: the strategies run in strict priority order and the
first strategy that structurally matches returns its filtered result,
even when that result is empty — in particular any JSON-LD result
shadows the microdata, heading and selector strategies. -/
theorem c6_amended_priority (soup : Soup) (l : List String)
    (h : methodLdJson soup.ldScripts = some l) : findFromSoup soup = some l := by
  simp only [findFromSoup, h]

/-- C6, witness: the amended theorem applied to the concrete page. -/
theorem c6_witness :
    methodLdJson c6Soup.ldScripts = some [] ∧ findFromSoup c6Soup = some [] :=
  ⟨rfl, c6_amended_priority c6Soup [] rfl⟩

/-- C8: `OrchestratorAgent.get_ingredients` gives every input dish an
entry in the results dict, and that entry is fully determined by that
dish alone: the returned clean list on success, the captured
`An error occurred: ...` singleton on an exception — so one dish
raising can neither abort nor alter the others. -/
theorem c8_isolation (fetch : String → Except String (List Item)) (dishes : List String)
    (d : String) (h : d ∈ dishes) :
    pyDictGet d (getIngredients fetch dishes) = some (fetchEntryResult (fetch d)) :=
  getIngredients_mem fetch dishes d h []

/-- C8, witness: soup raises and is captured, rice still succeeds. -/
theorem c8_witness :
    pyDictGet "soup" (getIngredients c8Fetch ["soup", "rice"])
        = some [Item.str "An error occurred: boom"] ∧
    pyDictGet "rice" (getIngredients c8Fetch ["soup", "rice"])
        = some [Item.dict ⟨"salt", "", ""⟩] := by
  constructor
  · have h := c8_isolation c8Fetch ["soup", "rice"] "soup" (by simp)
    rw [h]
    rfl
  · have h := c8_isolation c8Fetch ["soup", "rice"] "rice" (by simp)
    rw [h]
    rfl

/-- C7: after a successful fetch with the store available, repeating
`get_ingredients_for_dish` on the same dish takes the cache-hit
branch: it issues no web search (`searched = false`), leaves the store
unchanged, and returns the same ingredient list. -/
theorem c7_cache_idempotent (env : FetchEnv) (db : Db) (dish : String)
    (ings : List Json) (db' : Db) (s : Bool)
    (hav : env.dbAvailable = true)
    (h : getIngredientsForDish env db dish = ⟨Except.ok ings, db', s⟩) :
    getIngredientsForDish env db' dish = ⟨Except.ok ings, db', false⟩ := by
  unfold getIngredientsForDish at h ⊢
  rcases hdb : getRecipeFromDb env.dbAvailable db (cacheKeyOf env dish) with _ | ⟨_ | ⟨i, is⟩⟩
  · cases hs : env.searchResults with
    | nil =>
      simp only [hdb, hs] at h
      cases ht : env.translateDish (pyStrip dish) with
      | some t => simp [ht] at h
      | none => simp [ht] at h
    | cons u us =>
      simp only [hdb, hs] at h
      obtain ⟨hdb', hne⟩ := candidateLoop_ok env (cacheKeyOf env dish) db (u :: us) ings db' s h
      have hlook : getRecipeFromDb env.dbAvailable db' (cacheKeyOf env dish) = some ings := by
        rw [hdb', hav]
        simp [getRecipeFromDb, saveRecipeToDb, pyDictGet_set_self]
      cases ings with
      | nil => exact absurd rfl hne
      | cons i is => simp only [hlook]
  · cases hs : env.searchResults with
    | nil =>
      simp only [hdb, hs] at h
      cases ht : env.translateDish (pyStrip dish) with
      | some t => simp [ht] at h
      | none => simp [ht] at h
    | cons u us =>
      simp only [hdb, hs] at h
      obtain ⟨hdb', hne⟩ := candidateLoop_ok env (cacheKeyOf env dish) db (u :: us) ings db' s h
      have hlook : getRecipeFromDb env.dbAvailable db' (cacheKeyOf env dish) = some ings := by
        rw [hdb', hav]
        simp [getRecipeFromDb, saveRecipeToDb, pyDictGet_set_self]
      cases ings with
      | nil => exact absurd rfl hne
      | cons i is => simp only [hlook]
  · simp only [hdb, FetchOut.mk.injEq] at h
    obtain ⟨h1, h2, _⟩ := h
    obtain rfl : ings = i :: is := Except.ok.inj h1.symm
    subst h2
    simp only [hdb]

/-- C7, witness: the first fetch of tomato soup stores the clean list
under the key, and the theorem yields the searchless second call. -/
theorem c7_witness :
    getIngredientsForDish c7Env c7Db "Tomato Soup" = ⟨Except.ok c7Ings, c7Db, false⟩ :=
  c7_cache_idempotent c7Env [] "Tomato Soup" c7Ings c7Db true rfl rfl

/-- C3, counterexample: when the structuring chain raises — which its
JSON output stage does on non-JSON model text — the exception is
re-raised by `get_ingredients_for_dish` rather than being treated as
an empty result, so the fetch does crash. -/
theorem c3_counterexample :
    (getIngredientsForDish c3Env [] "pizza").result
      = Except.error (FetchErr.chainExn "invalid json output") := rfl

/-- C3, amended: for every *value* the structuring chain returns,
normalization is exception-free: a wrongly-shaped (non-list or empty)
value just advances the candidate loop, and no chain-originated
exception can surface from `get_ingredients_for_dish`; only a chain
that itself raises (non-JSON model output) crashes the fetch. -/
theorem c3_amended_no_chain_crash (env : FetchEnv) (db : Db) (dish : String)
    (hchain : ∀ s e, env.chain s ≠ Except.error e) (m : String) :
    (getIngredientsForDish env db dish).result ≠ Except.error (FetchErr.chainExn m) := by
  unfold getIngredientsForDish
  rcases hdb : getRecipeFromDb env.dbAvailable db (cacheKeyOf env dish) with _ | ⟨_ | ⟨i, is⟩⟩
  · cases hs : env.searchResults with
    | nil =>
      cases ht : env.translateDish (pyStrip dish) with
      | some t => simp [hdb, hs, ht]
      | none => simp [hdb, hs, ht]
    | cons u us =>
      simp only [hdb, hs]
      exact candidateLoop_no_chainExn env (cacheKeyOf env dish) db hchain (u :: us) m
  · cases hs : env.searchResults with
    | nil =>
      cases ht : env.translateDish (pyStrip dish) with
      | some t => simp [hdb, hs, ht]
      | none => simp [hdb, hs, ht]
    | cons u us =>
      simp only [hdb, hs]
      exact candidateLoop_no_chainExn env (cacheKeyOf env dish) db hchain (u :: us) m
  · simp [hdb]

/-- C3, witness: with a chain that returns a non-list value the fetch
raises no chain exception. -/
theorem c3_witness :
    (getIngredientsForDish c3OkEnv [] "pizza").result
      ≠ Except.error (FetchErr.chainExn "boom") :=
  c3_amended_no_chain_crash c3OkEnv [] "pizza"
    (fun s e h => by simp [c3OkEnv] at h) "boom"

/-- C4, counterexample: the chain returns one record whose name is
empty after trimming, and `get_ingredients_for_dish` both returns it
and stores it in the recipe store — no empty-name record is dropped
before storage. -/
theorem c4_counterexample :
    (getIngredientsForDish c4Env [] "Pizza").result = Except.ok [emptyNameRecord] ∧
    pyDictGet "pizza" (getIngredientsForDish c4Env [] "Pizza").db = some [emptyNameRecord] ∧
    (recName emptyNameRecord).map pyStrip = some "" :=
  ⟨rfl, rfl, rfl⟩

/-- C4, amended: whatever non-empty list the structuring chain
returned is stored verbatim under the cache key and returned to the
caller; `get_ingredients_for_dish` applies no per-record filtering, so
empty-name records are persisted too (they are only skipped later by
the consolidator). -/
theorem c4_amended_stored_verbatim (env : FetchEnv) (db : Db) (dish : String)
    (ings : List Json) (db' : Db)
    (hav : env.dbAvailable = true)
    (h : getIngredientsForDish env db dish = ⟨Except.ok ings, db', true⟩) :
    pyDictGet (cacheKeyOf env dish) db' = some ings ∧ ings ≠ [] := by
  unfold getIngredientsForDish at h
  rcases hdb : getRecipeFromDb env.dbAvailable db (cacheKeyOf env dish) with _ | ⟨_ | ⟨i, is⟩⟩
  · cases hs : env.searchResults with
    | nil =>
      simp only [hdb, hs] at h
      cases ht : env.translateDish (pyStrip dish) with
      | some t => simp [ht] at h
      | none => simp [ht] at h
    | cons u us =>
      simp only [hdb, hs] at h
      obtain ⟨hdb', hne⟩ := candidateLoop_ok env (cacheKeyOf env dish) db (u :: us) ings db' true h
      refine ⟨?_, hne⟩
      rw [hdb', hav]
      simp [saveRecipeToDb, pyDictGet_set_self]
  · cases hs : env.searchResults with
    | nil =>
      simp only [hdb, hs] at h
      cases ht : env.translateDish (pyStrip dish) with
      | some t => simp [ht] at h
      | none => simp [ht] at h
    | cons u us =>
      simp only [hdb, hs] at h
      obtain ⟨hdb', hne⟩ := candidateLoop_ok env (cacheKeyOf env dish) db (u :: us) ings db' true h
      refine ⟨?_, hne⟩
      rw [hdb', hav]
      simp [saveRecipeToDb, pyDictGet_set_self]
  · simp only [hdb] at h
    simp at h

/-- C4, witness: the amended theorem at the concrete environment. -/
theorem c4_witness :
    pyDictGet (cacheKeyOf c4Env "Pizza") [("pizza", [emptyNameRecord])]
        = some [emptyNameRecord] ∧ ([emptyNameRecord] : List Json) ≠ [] :=
  c4_amended_stored_verbatim c4Env [] "Pizza" [emptyNameRecord]
    [("pizza", [emptyNameRecord])] rfl rfl

end Shopping
